import Mathlib

/-! SMS CP-layer message codec (`lte/cloud/go/sms_ll/sms_cp.go`)

A shallow embedding of `createCpMessage`, `cpMessage.marshalBinary`,
`cpMessage.unmarshalBinary` and the two accessors, followed by the properties
established about them.

Conventions of the embedding.

* A Go `byte` is a `Nat`; every place where the Go code narrows a wider value to
  a byte is written with an explicit `% 256`.
* A Go `[]byte` that is only read element-wise or appended to is a `List Nat`.
  The `input` of `unmarshalBinary` is resliced (`input[decoded:end]`), and a Go
  reslice is checked against the capacity, not the length, so `input` is a
  `ByteSlice`: the visible elements together with the elements of the backing
  array between `len` and `cap`.
* `unmarshalBinary` has a pointer receiver and writes its fields one by one, so
  its embedding takes the receiver before the call and returns, in every
  outcome, the receiver as the call left it.
* A Go run-time panic (index or slice bounds out of range) is an outcome of its
  own, distinct from a returned `error`.
-/

namespace SmsCp

/-! ## Constants -/

/-- Protocol discriminator (3GPP TS 24.007 11.2.3.1.1), a half-octet. -/
abbrev CpProtocolDisc : Nat := 0x9

/-- Message type CP-DATA (24.011 8.1.3). -/
abbrev CpData : Nat := 0x1
/-- Message type CP-ACK. -/
abbrev CpAck : Nat := 0x4
/-- Message type CP-ERROR. -/
abbrev CpError : Nat := 0x10

/-- IE type: user data. -/
abbrev CpIeiUserData : Nat := 0x1
/-- IE type: cause. -/
abbrev CpIeiCause : Nat := 0x2

abbrev CpCauseNetworkFailure : Nat := 0x11
abbrev CpCauseCongestion : Nat := 0x16
abbrev CpCauseInvalidTi : Nat := 0x51
abbrev CpCauseSemanticallyIncorrect : Nat := 0x5f
abbrev CpCauseInvalidMandantoryInformation : Nat := 0x60
abbrev CpCauseMessageTypeNonexistant : Nat := 0x61
abbrev CpCauseMessageNotCompatible : Nat := 0x62
abbrev CpCauseInfoElementNonexistant : Nat := 0x63
abbrev CpCauseProtocolError : Nat := 0x6f

/-- The Go map `CpCauseStr`, as its list of key/value pairs. -/
def CpCauseStr : List (Nat × String) :=
  [ (CpCauseNetworkFailure, "Network failure"),
    (CpCauseCongestion, "Congestion"),
    (CpCauseInvalidTi, "Invalid Transaction Identifier value"),
    (CpCauseSemanticallyIncorrect, "Semantically incorrect message"),
    (CpCauseInvalidMandantoryInformation, "Invalid mandatory information"),
    (CpCauseMessageTypeNonexistant, "Message type non-existent or not implemented"),
    (CpCauseMessageNotCompatible, "Message not compatible with the short message protocol state"),
    (CpCauseInfoElementNonexistant, "Information element non-existent or not implemented"),
    (CpCauseProtocolError, "Protocol error, unspecified") ]

/-- The `ok` of the Go lookup `_, ok := CpCauseStr[c]`. -/
def CpCauseStr.contains (c : Nat) : Bool :=
  (CpCauseStr.lookup c).isSome

/-! ## Data model -/

/-- The Go struct `cpMessage`. -/
structure cpMessage where
  /-- Contains Transaction ID and Protocol Disc. -/
  firstOctet : Nat
  /-- CP-DATA, CP-ACK, or CP-ERROR. -/
  messageType : Nat
  /-- Only present for CP-ERROR. -/
  cause : Nat
  /-- Can be present for CP-DATA, CP-ACK and CP-ERROR. -/
  length : Nat
  /-- Only present for CP-DATA. -/
  rpdu : List Nat
  deriving DecidableEq

/-- The Go zero value `cpMessage{}` (a nil `rpdu` is the empty list). -/
def cpMessage.empty : cpMessage :=
  { firstOctet := 0, messageType := 0, cause := 0, length := 0, rpdu := [] }

/-- The errors the codec builds with `smsCpError(fmt.Sprintf(..))`, one
constructor per format string, carrying the value that the format cites. -/
inductive CpErr where
  /-- Text "Transaction ID must be 0-15: %x", citing `txID`. -/
  | transactionId (txID : Nat)
  /-- Text "Invalid CP Message Type: 0x%x", citing `messageType` (construction). -/
  | invalidCpMessageType (messageType : Nat)
  /-- Text "Message too short". -/
  | messageTooShort
  /-- Text "Invalid Message type: %x", citing `cpm.messageType` (parsing). -/
  | invalidMessageType (messageType : Nat)
  /-- Text "Invalid cause: %x", citing the value the code passes to the format. -/
  | invalidCause (cited : Nat)
  /-- Text "Invalid IE type: %x", citing the tag byte. -/
  | invalidIeType (tag : Nat)
  deriving DecidableEq

/-- A Go `[]byte` that gets resliced: `elems` are the `len` visible elements,
`spare` the elements of the backing array from `len` up to `cap`. -/
structure ByteSlice where
  elems : List Nat
  spare : List Nat
  deriving DecidableEq

/-- Go `len(s)`. -/
def ByteSlice.len (s : ByteSlice) : Nat := s.elems.length

/-- Go `cap(s)`. -/
def ByteSlice.cap (s : ByteSlice) : Nat := s.elems.length + s.spare.length

/-- A slice whose capacity equals its length, such as a slice literal. -/
def ByteSlice.exact (bs : List Nat) : ByteSlice := { elems := bs, spare := [] }

/-- Go `s[i]`: checked against the length; `none` stands for the panic. -/
def ByteSlice.index (s : ByteSlice) (i : Nat) : Option Nat := s.elems[i]?

/-- Go `s[lo:hi]`, read as its elements: checked against the capacity;
`none` stands for the panic. -/
def ByteSlice.reslice (s : ByteSlice) (lo hi : Nat) : Option (List Nat) :=
  if lo ≤ hi ∧ hi ≤ s.cap then some (((s.elems ++ s.spare).drop lo).take (hi - lo)) else none

/-- The run-time panics `unmarshalBinary` can raise. -/
inductive GoPanic where
  /-- Index out of range: `input[index]` with `len(input) = len`. -/
  | indexOutOfRange (index len : Nat)
  /-- Slice bounds out of range: `input[_:high]` with `cap(input) = cap`. -/
  | sliceBoundsOutOfRange (high cap : Nat)
  deriving DecidableEq

/-- How a call of `unmarshalBinary` ends, with the receiver as the call left it. -/
inductive Outcome where
  /-- The call returned `nil`. -/
  | ok (cpm : cpMessage)
  /-- The call returned a non-nil error. -/
  | error (cpm : cpMessage) (e : CpErr)
  /-- The call panicked. -/
  | panicked (cpm : cpMessage) (p : GoPanic)
  deriving DecidableEq

/-- The receiver after the call. -/
def Outcome.receiver : Outcome → cpMessage
  | .ok cpm => cpm
  | .error cpm _ => cpm
  | .panicked cpm _ => cpm

/-- The returned error, if the call returned one. -/
def Outcome.err? : Outcome → Option CpErr
  | .error _ e => some e
  | _ => none

/-! ## Operations -/

/-- Go `createCpMessage`. -/
def createCpMessage (txID messageType : Nat) (rpdu : List Nat) : Except CpErr cpMessage :=
  if txID > 15 then
    .error (.transactionId txID)
  else if ¬ (messageType = CpData ∨ messageType = CpError ∨ messageType = CpAck) then
    .error (.invalidCpMessageType messageType)
  else
    let fo : Nat := 0x0
    let fo := fo ||| ((txID <<< 4) % 256)
    let fo := fo ||| CpProtocolDisc
    let rpduCopy := rpdu
    .ok { firstOctet := fo,
          messageType := messageType,
          cause := 0,
          length := rpduCopy.length % 256,
          rpdu := rpduCopy }

/-- Go `cpMessage.marshalBinary`. -/
def cpMessage.marshalBinary (cpm : cpMessage) : List Nat :=
  let b := [cpm.firstOctet, cpm.messageType]
  if cpm.messageType = CpData then
    (b ++ [cpm.length]) ++ cpm.rpdu
  else if cpm.messageType = CpError then
    b ++ [cpm.cause]
  else
    b

/-- The loop `for decoded < msgLen` of `unmarshalBinary`, from the cursor
`decoded` and the receiver `cpm` on. Every pass that does not leave the function
moves the cursor forward by at least two. -/
def decodeIEs (input : ByteSlice) (decoded : Nat) (cpm : cpMessage) : Outcome :=
  if h : decoded < input.elems.length then
    if input.elems[decoded] = CpIeiUserData then
      let decoded := decoded + 1
      match input.index decoded with
      | none => .panicked cpm (.indexOutOfRange decoded input.len)
      | some l =>
        let cpm : cpMessage := { cpm with length := l }
        let decoded := decoded + 1
        let endPos := decoded + cpm.length
        let cpm : cpMessage := { cpm with rpdu := List.replicate cpm.length 0 }
        match input.reslice decoded endPos with
        | none => .panicked cpm (.sliceBoundsOutOfRange endPos input.cap)
        | some src => decodeIEs input endPos { cpm with rpdu := src }
    else if input.elems[decoded] = CpIeiCause then
      let decoded := decoded + 1
      match input.index decoded with
      | none => .panicked cpm (.indexOutOfRange decoded input.len)
      | some c =>
        if CpCauseStr.contains c then
          decodeIEs input (decoded + 1) { cpm with cause := c }
        else
          .error cpm (.invalidCause cpm.cause)
    else
      .error cpm (.invalidIeType input.elems[decoded])
  else
    .ok cpm
termination_by input.elems.length - decoded
decreasing_by all_goals (simp_wf; omega)

/-- Go `cpMessage.unmarshalBinary`. -/
def cpMessage.unmarshalBinary (cpm : cpMessage) (input : ByteSlice) : Outcome :=
  if h : input.elems.length < 2 then
    .error cpm .messageTooShort
  else
    let cpm : cpMessage := { cpm with firstOctet := input.elems[0] }
    let cpm : cpMessage := { cpm with messageType := input.elems[1] }
    if cpm.messageType ≠ CpData ∧ cpm.messageType ≠ CpError ∧ cpm.messageType ≠ CpAck then
      .error cpm (.invalidMessageType cpm.messageType)
    else
      decodeIEs input 2 cpm

/-- Go `cpMessage.GetTransactionId`. -/
def cpMessage.GetTransactionId (cpm : cpMessage) : Nat :=
  cpm.firstOctet >>> 4

/-- Go `cpMessage.GetProtocolDisc`. -/
def cpMessage.GetProtocolDisc (cpm : cpMessage) : Nat :=
  cpm.firstOctet &&& 0xf

/-! ## Construction -/

/-- Unfolding of `createCpMessage` on arguments it accepts. -/
theorem createCpMessage_ok (txID messageType : Nat) (rpdu : List Nat)
    (htx : txID ≤ 15)
    (hmt : messageType = CpData ∨ messageType = CpError ∨ messageType = CpAck) :
    createCpMessage txID messageType rpdu =
      .ok { firstOctet := (0 ||| ((txID <<< 4) % 256)) ||| CpProtocolDisc,
            messageType := messageType,
            cause := 0,
            length := rpdu.length % 256,
            rpdu := rpdu } := by
  unfold createCpMessage
  rw [if_neg (by omega), if_neg (not_not.mpr hmt)]

/-- Packing a transaction ID of at most 15 over the protocol discriminator. -/
theorem firstOctet_pack (txID : Nat) (htx : txID ≤ 15) :
    (0 ||| ((txID <<< 4) % 256)) ||| CpProtocolDisc = (txID <<< 4) ||| 0x9 ∧
      ((txID <<< 4) ||| 0x9) >>> 4 = txID ∧ ((txID <<< 4) ||| 0x9) &&& 0xf = 0x9 := by
  interval_cases txID <;> decide

/-! ## The IE loop -/

/-- The loop is left with `nil` once the cursor has reached the end of the input. -/
theorem decodeIEs_done (input : ByteSlice) (decoded : Nat) (cpm : cpMessage)
    (h : input.elems.length ≤ decoded) : decodeIEs input decoded cpm = .ok cpm := by
  rw [decodeIEs, dif_neg (by omega)]

/-- The loop never builds the "Message too short" error. -/
theorem decodeIEs_err_ne_messageTooShort (input : ByteSlice) (decoded : Nat) (cpm : cpMessage) :
    (decodeIEs input decoded cpm).err? ≠ some .messageTooShort := by
  induction decoded, cpm using decodeIEs.induct input with
  | case1 decoded cpm h htag _ hidx => rw [decodeIEs]; simp [h, htag, hidx, Outcome.err?]
  | case2 decoded cpm h htag _ l hidx _ _ _ hsl =>
    rw [decodeIEs]; simp [h, htag, hidx, hsl, Outcome.err?]
  | case3 decoded cpm h htag _ l hidx _ _ _ _ src hsl ih =>
    rw [decodeIEs]; simpa [h, htag, hidx, hsl] using ih
  | case4 decoded cpm h hnt htag _ hidx => rw [decodeIEs]; simp [h, hnt, htag, hidx, Outcome.err?]
  | case5 decoded cpm h hnt htag _ c hidx hc ih =>
    rw [decodeIEs]; simpa [h, hnt, htag, hidx, hc] using ih
  | case6 decoded cpm h hnt htag _ c hidx hc =>
    rw [decodeIEs]; simp [h, hnt, htag, hidx, hc, Outcome.err?]
  | case7 decoded cpm h hnt hnc => rw [decodeIEs]; simp [h, hnt, hnc, Outcome.err?]
  | case8 decoded cpm h => rw [decodeIEs]; simp [h, Outcome.err?]

/-- Unfolding of `unmarshalBinary` on an input of at least two bytes. -/
theorem unmarshalBinary_cons_cons (cpm : cpMessage) (fo t : Nat) (rest spare : List Nat) :
    cpm.unmarshalBinary ⟨fo :: t :: rest, spare⟩ =
      if t ≠ CpData ∧ t ≠ CpError ∧ t ≠ CpAck then
        .error { cpm with firstOctet := fo, messageType := t } (.invalidMessageType t)
      else
        decodeIEs ⟨fo :: t :: rest, spare⟩ 2 { cpm with firstOctet := fo, messageType := t } := by
  simp [cpMessage.unmarshalBinary]

/-! ## Round trip through `marshalBinary` and `unmarshalBinary` -/

/-- Every CP-ERROR message that `createCpMessage` builds is rejected by
`unmarshalBinary` once marshalled: the cause byte (zero, `createCpMessage`
leaves it unset) sits where the parser expects an IE tag. -/
theorem round_trip_error_rejected (txID : Nat) (rpdu spare : List Nat) (htx : txID ≤ 15) :
    ∃ m, createCpMessage txID CpError rpdu = .ok m ∧
      m.marshalBinary = [m.firstOctet, CpError, 0] ∧
      cpMessage.empty.unmarshalBinary ⟨m.marshalBinary, spare⟩ =
        .error ⟨m.firstOctet, CpError, 0, 0, []⟩ (.invalidIeType 0) := by
  refine ⟨_, createCpMessage_ok txID CpError rpdu htx (by simp), ?_, ?_⟩
  · simp [cpMessage.marshalBinary]
  · simp [cpMessage.marshalBinary, cpMessage.unmarshalBinary, decodeIEs, cpMessage.empty]

/-- C1 (the code breaks the claim): `createCpMessage(0, CpData, [])` succeeds and
marshals to `[0x09, 0x01, 0x00]`, and `unmarshalBinary` of these bytes into an
empty message, whatever the capacity of the slice, returns the error
"Invalid IE type: 0" instead of reproducing the message: the marshalled length
byte sits where the parser expects an IE tag. -/
theorem round_trip_data_empty_rejected :
    createCpMessage 0 CpData [] = .ok ⟨0x09, CpData, 0, 0, []⟩ ∧
      (⟨0x09, CpData, 0, 0, []⟩ : cpMessage).marshalBinary = [0x09, 0x01, 0x00] ∧
      ∀ spare : List Nat,
        cpMessage.empty.unmarshalBinary ⟨[0x09, 0x01, 0x00], spare⟩ =
          .error ⟨0x09, CpData, 0, 0, []⟩ (.invalidIeType 0) := by
  refine ⟨rfl, by decide, fun spare => ?_⟩
  simp [cpMessage.unmarshalBinary, decodeIEs, cpMessage.empty]

/-! ## Inputs that end inside an IE -/

/-- C2 (the code breaks the claim): on `[0x09, 0x01, 0x01, 0x05, 0xAA]` no error
is returned. When the capacity of the slice equals its length the reslice
`input[4:9]` panics; when the backing array holds four more bytes the call
copies them into `rpdu` and returns `nil`. -/
theorem unmarshal_overlong_user_data :
    cpMessage.empty.unmarshalBinary (.exact [0x09, 0x01, 0x01, 0x05, 0xAA]) =
        .panicked ⟨0x09, CpData, 0, 5, [0, 0, 0, 0, 0]⟩ (.sliceBoundsOutOfRange 9 5) ∧
      cpMessage.empty.unmarshalBinary ⟨[0x09, 0x01, 0x01, 0x05, 0xAA], [1, 2, 3, 4]⟩ =
        .ok ⟨0x09, CpData, 0, 5, [0xAA, 1, 2, 3, 4]⟩ := by
  constructor <;>
    simp [cpMessage.unmarshalBinary, decodeIEs, ByteSlice.len, ByteSlice.index,
      ByteSlice.reslice, ByteSlice.cap, ByteSlice.exact, cpMessage.empty]

/-- A User Data IE at offset 2 that declares more bytes than the input still
holds never yields an error: the reslice panics when the capacity is too small
as well, and otherwise the call returns `nil` with bytes from beyond the length
of the input copied into `rpdu`. -/
theorem overlong_user_data_outcome (cpm : cpMessage) (fo t L : Nat)
    (p spare : List Nat) (ht : t = CpData ∨ t = CpError ∨ t = CpAck) (hL : p.length < L) :
    cpm.unmarshalBinary ⟨fo :: t :: CpIeiUserData :: L :: p, spare⟩ =
      if p.length + spare.length < L then
        .panicked { cpm with firstOctet := fo, messageType := t, length := L,
                             rpdu := List.replicate L 0 }
          (.sliceBoundsOutOfRange (4 + L) (4 + p.length + spare.length))
      else
        .ok { cpm with firstOctet := fo, messageType := t, length := L,
                       rpdu := (p ++ spare).take L } := by
  have hne : ¬ (¬ t = 1 ∧ ¬ t = 16 ∧ ¬ t = 4) := by
    rcases ht with h | h | h <;> simp [h]
  rw [unmarshalBinary_cons_cons, if_neg (by simpa using hne), decodeIEs]
  by_cases hcap : p.length + spare.length < L
  · have h1 : ¬ (4 + L ≤ p.length + 4 + spare.length) := by omega
    simp [ByteSlice.index, ByteSlice.reslice, ByteSlice.cap, ByteSlice.len, hcap, h1]
    omega
  · have h1 : 4 + L ≤ p.length + 4 + spare.length := by omega
    simp [ByteSlice.index, ByteSlice.reslice, ByteSlice.cap, ByteSlice.len, hcap, h1]
    exact decodeIEs_done _ _ _ (by simp; omega)

/-- An input that stops right after an IE tag `0x1` or `0x2` at offset 2 makes
the next read `input[3]` panic, for every receiver, header and capacity. -/
theorem unmarshal_tag_at_end_panics (cpm : cpMessage) (fo t tag : Nat) (spare : List Nat)
    (ht : t = CpData ∨ t = CpError ∨ t = CpAck)
    (htag : tag = CpIeiUserData ∨ tag = CpIeiCause) :
    cpm.unmarshalBinary ⟨[fo, t, tag], spare⟩ =
      .panicked { cpm with firstOctet := fo, messageType := t } (.indexOutOfRange 3 3) := by
  have hne : ¬ (¬ t = 1 ∧ ¬ t = 16 ∧ ¬ t = 4) := by
    rcases ht with h | h | h <;> simp [h]
  rcases htag with rfl | rfl <;>
    simp [cpMessage.unmarshalBinary, decodeIEs, ByteSlice.len, ByteSlice.index, hne]

/-- C3 (the code breaks the claim): on `[0x09, 0x01, 0x01]` and on
`[0x09, 0x10, 0x02]` the call does not return an error; reading the missing
length byte, respectively cause byte, `input[3]` panics with index out of
range, whatever the capacity of the slice. -/
theorem unmarshal_missing_ie_byte_panics (spare : List Nat) :
    cpMessage.empty.unmarshalBinary ⟨[0x09, 0x01, 0x01], spare⟩ =
        .panicked ⟨0x09, CpData, 0, 0, []⟩ (.indexOutOfRange 3 3) ∧
      cpMessage.empty.unmarshalBinary ⟨[0x09, 0x10, 0x02], spare⟩ =
        .panicked ⟨0x09, CpError, 0, 0, []⟩ (.indexOutOfRange 3 3) := by
  constructor <;>
    simp [cpMessage.unmarshalBinary, decodeIEs, ByteSlice.len, ByteSlice.index, cpMessage.empty]

/-! ## Construction: failures and fields -/

/-- C4: `createCpMessage` returns an error exactly when `txID > 15` or the
message type is none of `0x1`, `0x4`, `0x10`; with `txID > 15` the error is the
transaction-ID error citing `txID` (also when the message type is invalid as
well); with `txID ≤ 15` and an invalid message type it is the
invalid-message-type error; and `rpdu` has no influence on which error, if any,
is returned. -/
theorem createCpMessage_error_iff (txID messageType : Nat) (rpdu rpdu2 : List Nat) :
    ((∃ e, createCpMessage txID messageType rpdu = .error e) ↔
        (txID > 15 ∨ ¬ (messageType = 0x1 ∨ messageType = 0x4 ∨ messageType = 0x10))) ∧
      (txID > 15 → createCpMessage txID messageType rpdu = .error (.transactionId txID)) ∧
      (txID ≤ 15 → ¬ (messageType = 0x1 ∨ messageType = 0x4 ∨ messageType = 0x10) →
        createCpMessage txID messageType rpdu = .error (.invalidCpMessageType messageType)) ∧
      (∀ e, createCpMessage txID messageType rpdu = .error e ↔
        createCpMessage txID messageType rpdu2 = .error e) := by
  by_cases htx : txID > 15
  · simp [createCpMessage, htx]
  · by_cases hmt : messageType = 0x1 ∨ messageType = 0x4 ∨ messageType = 0x10
    · have hmt2 : messageType = CpData ∨ messageType = CpError ∨ messageType = CpAck := by
        rcases hmt with h | h | h <;> simp [h]
      have hle : txID ≤ 15 := by omega
      simp [createCpMessage_ok txID messageType _ hle hmt2, htx, hmt]
    · have hmt2 : ¬ (messageType = CpData ∨ messageType = CpError ∨ messageType = CpAck) := by
        intro h
        exact hmt (by rcases h with h | h | h <;> simp [h])
      simp only [createCpMessage, if_neg htx, if_pos hmt2]
      simp [htx, hmt]

/-- Instances of C4: `create(16, Data, [])` fails with the transaction-ID error
citing 16, and `create(3, 0x99, [])` with the invalid-message-type error. -/
theorem createCpMessage_error_iff_witness :
    createCpMessage 16 CpData [] = .error (.transactionId 16) ∧
      createCpMessage 3 0x99 [] = .error (.invalidCpMessageType 0x99) :=
  ⟨(createCpMessage_error_iff 16 CpData [] []).2.1 (by decide),
   (createCpMessage_error_iff 3 0x99 [] []).2.2.1 (by decide) (by decide)⟩

/-- C5: for `txID ≤ 15` and a valid message type, `createCpMessage` succeeds
with `firstOctet = (txID << 4) | 0x9`, so that `GetTransactionId` gives back
`txID` and `GetProtocolDisc` gives `0x9`. -/
theorem createCpMessage_firstOctet (txID messageType : Nat) (rpdu : List Nat)
    (htx : txID ≤ 15)
    (hmt : messageType = CpData ∨ messageType = CpAck ∨ messageType = CpError) :
    ∃ m, createCpMessage txID messageType rpdu = .ok m ∧
      m.firstOctet = (txID <<< 4) ||| 0x9 ∧
      m.GetTransactionId = txID ∧ m.GetProtocolDisc = 0x9 := by
  have hmt2 : messageType = CpData ∨ messageType = CpError ∨ messageType = CpAck := by
    rcases hmt with h | h | h <;> simp [h]
  obtain ⟨h1, h2, h3⟩ := firstOctet_pack txID htx
  refine ⟨_, createCpMessage_ok txID messageType rpdu htx hmt2, h1, ?_, ?_⟩
  · simp only [cpMessage.GetTransactionId, h1, h2]
  · simp only [cpMessage.GetProtocolDisc, h1, h3]

/-- Instance of C5: `GetTransactionId(create(7, Ack, [])) = 7`. -/
theorem createCpMessage_firstOctet_witness :
    ∃ m, createCpMessage 7 CpAck [] = .ok m ∧
      m.firstOctet = (7 <<< 4) ||| 0x9 ∧
      m.GetTransactionId = 7 ∧ m.GetProtocolDisc = 0x9 :=
  createCpMessage_firstOctet 7 CpAck [] (by decide) (by decide)

/-- C6 as stated fails: for an `rpdu` of 256 bytes `createCpMessage` succeeds
with `length = 0`, not 256. -/
theorem createCpMessage_length_wraps :
    ∃ m, createCpMessage 0 CpData (List.replicate 256 0) = .ok m ∧
      m.rpdu = List.replicate 256 0 ∧ m.length = 0 ∧
      m.length ≠ (List.replicate 256 0).length := by
  refine ⟨_, createCpMessage_ok 0 CpData _ (by decide) (by decide), rfl, ?_, ?_⟩
  · show (List.replicate 256 0).length % 256 = 0
    rw [List.length_replicate]
  · show (List.replicate 256 0).length % 256 ≠ (List.replicate 256 0).length
    rw [List.length_replicate]
    decide

/-- C6, amended: for every successful `createCpMessage`, the message holds the
bytes of the argument and `length` is the number of those bytes modulo 256 (the
conversion `byte(len(rpduCopy))`); it is the number of bytes itself exactly
when `rpdu` has at most 255 bytes. -/
theorem createCpMessage_rpdu_length (txID messageType : Nat) (rpdu : List Nat) (m : cpMessage)
    (h : createCpMessage txID messageType rpdu = .ok m) :
    m.rpdu = rpdu ∧ m.length = rpdu.length % 256 ∧
      (m.length = rpdu.length ↔ rpdu.length ≤ 255) := by
  unfold createCpMessage at h
  split at h
  · cases h
  · split at h
    · cases h
    · cases h
      refine ⟨rfl, rfl, ?_⟩
      show rpdu.length % 256 = rpdu.length ↔ rpdu.length ≤ 255
      omega

/-- Instance of the amended C6 on a 300-byte `rpdu`: `length` is 44. -/
theorem createCpMessage_rpdu_length_witness :
    ∃ m, createCpMessage 7 CpData (List.replicate 300 7) = .ok m ∧
      m.length = 44 ∧
      (m.rpdu = List.replicate 300 7 ∧ m.length = (List.replicate 300 7).length % 256 ∧
        (m.length = (List.replicate 300 7).length ↔ (List.replicate 300 7).length ≤ 255)) :=
  ⟨_, createCpMessage_ok 7 CpData _ (by decide) (by decide),
    by show (List.replicate 300 7).length % 256 = 44; rw [List.length_replicate],
    createCpMessage_rpdu_length 7 CpData (List.replicate 300 7) _
      (createCpMessage_ok 7 CpData _ (by decide) (by decide))⟩

/-! ## Serialisation -/

/-- C7: a message of type CP-DATA marshals to `[firstOctet, 0x01, length]`
followed by the bytes of `rpdu`, hence to `3 + len(rpdu)` bytes, and the
`cause` field has no effect on the output. -/
theorem marshalBinary_data (m : cpMessage) (h : m.messageType = CpData) :
    m.marshalBinary = [m.firstOctet, 0x01, m.length] ++ m.rpdu ∧
      m.marshalBinary.length = 3 + m.rpdu.length ∧
      ∀ c : Nat, ({ m with cause := c } : cpMessage).marshalBinary = m.marshalBinary := by
  refine ⟨?_, ?_, fun c => ?_⟩
  · simp [cpMessage.marshalBinary, h]
  · simp [cpMessage.marshalBinary, h]; omega
  · simp [cpMessage.marshalBinary, h]

/-- Instance of C7 on a CP-DATA message with a two-byte `rpdu`. -/
theorem marshalBinary_data_witness :
    (⟨0x29, CpData, 0x11, 2, [0xAA, 0xBB]⟩ : cpMessage).marshalBinary =
        [0x29, 0x01, 2] ++ [0xAA, 0xBB] ∧
      (⟨0x29, CpData, 0x11, 2, [0xAA, 0xBB]⟩ : cpMessage).marshalBinary.length = 3 + 2 ∧
      ∀ c : Nat, (⟨0x29, CpData, c, 2, [0xAA, 0xBB]⟩ : cpMessage).marshalBinary =
        (⟨0x29, CpData, 0x11, 2, [0xAA, 0xBB]⟩ : cpMessage).marshalBinary :=
  marshalBinary_data ⟨0x29, CpData, 0x11, 2, [0xAA, 0xBB]⟩ rfl

/-- C8: a message of type CP-ERROR marshals to exactly the three bytes
`[firstOctet, 0x10, cause]`, whatever `length` and `rpdu` hold. -/
theorem marshalBinary_error (m : cpMessage) (h : m.messageType = CpError) :
    m.marshalBinary = [m.firstOctet, 0x10, m.cause] ∧
      ∀ (l : Nat) (r : List Nat),
        ({ m with length := l, rpdu := r } : cpMessage).marshalBinary = m.marshalBinary := by
  refine ⟨?_, fun l r => ?_⟩ <;> simp [cpMessage.marshalBinary, h]

/-- Instance of C8 on a CP-ERROR message that carries a stray payload. -/
theorem marshalBinary_error_witness :
    (⟨0x39, CpError, 0x16, 2, [0xAA, 0xBB]⟩ : cpMessage).marshalBinary = [0x39, 0x10, 0x16] ∧
      ∀ (l : Nat) (r : List Nat),
        (⟨0x39, CpError, 0x16, l, r⟩ : cpMessage).marshalBinary =
          (⟨0x39, CpError, 0x16, 2, [0xAA, 0xBB]⟩ : cpMessage).marshalBinary :=
  marshalBinary_error ⟨0x39, CpError, 0x16, 2, [0xAA, 0xBB]⟩ rfl

/-- C9: a message of type CP-ACK marshals to exactly the two bytes
`[firstOctet, 0x04]`, whatever `rpdu`, `length` and `cause` hold; hence for
`txID ≤ 15` and every `rpdu`, `createCpMessage(txID, CpAck, rpdu)` succeeds and
marshals to `[(txID << 4) | 0x9, 0x04]`. -/
theorem marshalBinary_ack (m : cpMessage) (txID : Nat) (rpdu : List Nat)
    (h : m.messageType = CpAck) (htx : txID ≤ 15) :
    m.marshalBinary = [m.firstOctet, 0x04] ∧
      ∃ m2, createCpMessage txID CpAck rpdu = .ok m2 ∧
        m2.marshalBinary = [(txID <<< 4) ||| 0x9, 0x04] := by
  refine ⟨by simp [cpMessage.marshalBinary, h],
    _, createCpMessage_ok txID CpAck rpdu htx (by simp), ?_⟩
  have hfo := (firstOctet_pack txID htx).1
  simp only [Nat.zero_or] at hfo
  simp [cpMessage.marshalBinary, hfo]

/-- Instance of C9: `marshal(create(0, Ack, [])) = [0x09, 0x04]`, and a CP-ACK
message with stray cause and payload marshals to its two header bytes. -/
theorem marshalBinary_ack_witness :
    (⟨0x59, CpAck, 0x11, 1, [0xAA]⟩ : cpMessage).marshalBinary = [0x59, 0x04] ∧
      ∃ m2, createCpMessage 0 CpAck [] = .ok m2 ∧ m2.marshalBinary = [0x09, 0x04] :=
  marshalBinary_ack ⟨0x59, CpAck, 0x11, 1, [0xAA]⟩ 0 [] rfl (by decide)

/-! ## Parsing: the header -/

/-- C10: `unmarshalBinary` returns the "Message too short" error exactly when
the input has fewer than two bytes, for every receiver and every capacity. -/
theorem unmarshalBinary_messageTooShort_iff (cpm : cpMessage) (input : ByteSlice) :
    (cpm.unmarshalBinary input).err? = some .messageTooShort ↔ input.len < 2 := by
  obtain ⟨elems, spare⟩ := input
  match elems with
  | [] => simp [cpMessage.unmarshalBinary, ByteSlice.len, Outcome.err?]
  | [_] => simp [cpMessage.unmarshalBinary, ByteSlice.len, Outcome.err?]
  | fo :: t :: rest =>
    rw [unmarshalBinary_cons_cons]
    have hlen : ¬ (ByteSlice.len ⟨fo :: t :: rest, spare⟩ < 2) := by simp [ByteSlice.len]
    simp only [hlen, iff_false]
    by_cases hmt : t ≠ CpData ∧ t ≠ CpError ∧ t ≠ CpAck
    · rw [if_pos hmt]
      simp [Outcome.err?]
    · rw [if_neg hmt]
      exact decodeIEs_err_ne_messageTooShort _ _ _

/-- C11: an input of at least two bytes whose byte 1 is none of `0x1`, `0x4`,
`0x10` is rejected with the "Invalid Message type" error citing that byte,
whatever bytes follow (the loop over the IEs is not entered); and the shortest
valid inputs `[fo, t2]`, with `t2` one of the three types, are accepted with
`firstOctet = fo` and `messageType = t2`, the other fields of the receiver being
left as they were. -/
theorem unmarshalBinary_messageType (cpm : cpMessage) (fo t t2 : Nat) (rest spare : List Nat)
    (hbad : t ≠ 0x1 ∧ t ≠ 0x4 ∧ t ≠ 0x10)
    (hgood : t2 = 0x1 ∨ t2 = 0x4 ∨ t2 = 0x10) :
    cpm.unmarshalBinary ⟨fo :: t :: rest, spare⟩ =
        .error { cpm with firstOctet := fo, messageType := t } (.invalidMessageType t) ∧
      cpm.unmarshalBinary ⟨[fo, t2], spare⟩ =
        .ok { cpm with firstOctet := fo, messageType := t2 } := by
  constructor
  · rw [unmarshalBinary_cons_cons, if_pos]
    exact ⟨hbad.1, hbad.2.2, hbad.2.1⟩
  · rw [unmarshalBinary_cons_cons, if_neg]
    · exact decodeIEs_done _ _ _ (by simp)
    · rcases hgood with h | h | h <;> simp [h]

/-- Instance of C11: `[0x09, 0x99, 0x01, 0x00]` is rejected on its type byte, and
`[0x09, 0x04]` parses as a CP-ACK with first octet `0x09`. -/
theorem unmarshalBinary_messageType_witness :
    cpMessage.empty.unmarshalBinary ⟨[0x09, 0x99, 0x01, 0x00], []⟩ =
        .error ⟨0x09, 0x99, 0, 0, []⟩ (.invalidMessageType 0x99) ∧
      cpMessage.empty.unmarshalBinary ⟨[0x09, 0x04], []⟩ = .ok ⟨0x09, 0x04, 0, 0, []⟩ :=
  unmarshalBinary_messageType cpMessage.empty 0x09 0x99 0x04 [0x01, 0x00] []
    (by decide) (by decide)

/-! ## Parsing: single IEs -/

/-- C12: for every first octet, valid message type and payload `p` of at most
255 bytes, `[fo, t, 0x01, len(p)] ++ p` is accepted, for every capacity, and
the receiver ends with `firstOctet = fo`, `messageType = t`, `length = len(p)`
and `rpdu = p` (its `cause` is left as it was, zero for an empty message). The
bound on `p` is what makes `len(p)` a byte. -/
theorem unmarshalBinary_user_data (cpm : cpMessage) (fo t : Nat) (p spare : List Nat)
    (ht : t = 0x1 ∨ t = 0x4 ∨ t = 0x10) (_hp : p.length ≤ 255) :
    cpm.unmarshalBinary ⟨[fo, t, 0x01, p.length] ++ p, spare⟩ =
      .ok { cpm with firstOctet := fo, messageType := t, length := p.length, rpdu := p } := by
  have hne : ¬ (¬ t = 1 ∧ ¬ t = 16 ∧ ¬ t = 4) := by
    rcases ht with h | h | h <;> simp [h]
  have h1 : 4 + p.length ≤ p.length + 4 + spare.length := by omega
  show cpm.unmarshalBinary ⟨fo :: t :: 0x01 :: p.length :: p, spare⟩ = _
  rw [unmarshalBinary_cons_cons, if_neg (by simpa using hne), decodeIEs]
  simp [ByteSlice.index, ByteSlice.reslice, ByteSlice.cap, ByteSlice.len, h1]
  exact decodeIEs_done _ _ _ (by simp; omega)

/-- Instance of C12: `[0x09, 0x01, 0x01, 0x03, 0xAA, 0xBB, 0xCC]` parses as a
CP-DATA message with `rpdu = [0xAA, 0xBB, 0xCC]` (and transaction ID 0). -/
theorem unmarshalBinary_user_data_witness :
    cpMessage.empty.unmarshalBinary ⟨[0x09, 0x01, 0x01, 0x03, 0xAA, 0xBB, 0xCC], []⟩ =
      .ok ⟨0x09, 0x01, 0, 3, [0xAA, 0xBB, 0xCC]⟩ :=
  unmarshalBinary_user_data cpMessage.empty 0x09 0x01 [0xAA, 0xBB, 0xCC] []
    (by decide) (by decide)

/-- Membership in the Go map `CpCauseStr`, spelled out. -/
theorem CpCauseStr_contains_iff (c : Nat) :
    CpCauseStr.contains c = true ↔
      c ∈ [0x11, 0x16, 0x51, 0x5f, 0x60, 0x61, 0x62, 0x63, 0x6f] := by
  simp only [CpCauseStr.contains, CpCauseStr, List.lookup]
  constructor
  · intro h
    by_contra hc
    simp only [List.mem_cons, List.mem_singleton, not_or, List.not_mem_nil, or_false] at hc
    obtain ⟨h1, h2, h3, h4, h5, h6, h7, h8, h9⟩ := hc
    simp [beq_eq_false_iff_ne.mpr h1, beq_eq_false_iff_ne.mpr h2, beq_eq_false_iff_ne.mpr h3,
      beq_eq_false_iff_ne.mpr h4, beq_eq_false_iff_ne.mpr h5, beq_eq_false_iff_ne.mpr h6,
      beq_eq_false_iff_ne.mpr h7, beq_eq_false_iff_ne.mpr h8, beq_eq_false_iff_ne.mpr h9] at h
  · intro h
    simp only [List.mem_cons, List.mem_singleton, List.not_mem_nil, or_false] at h
    rcases h with h | h | h | h | h | h | h | h | h <;> subst h <;> rfl

/-- Unfolding of `unmarshalBinary` on a valid header followed by one Cause IE. -/
theorem unmarshalBinary_single_cause_ie (cpm : cpMessage) (fo t c : Nat) (spare : List Nat)
    (ht : t = 0x1 ∨ t = 0x4 ∨ t = 0x10) :
    cpm.unmarshalBinary ⟨[fo, t, 0x02, c], spare⟩ =
      if CpCauseStr.contains c = true then
        .ok { cpm with firstOctet := fo, messageType := t, cause := c }
      else
        .error { cpm with firstOctet := fo, messageType := t } (.invalidCause cpm.cause) := by
  have hne : ¬ (¬ t = 1 ∧ ¬ t = 16 ∧ ¬ t = 4) := by
    rcases ht with h | h | h <;> simp [h]
  rw [unmarshalBinary_cons_cons, if_neg (by simpa using hne), decodeIEs]
  by_cases hc : CpCauseStr.contains c = true
  · simp [ByteSlice.index, hc]
    exact decodeIEs_done _ _ _ (by simp)
  · simp [ByteSlice.index, hc]

/-- C13: for every first octet, valid message type and byte `c`, the input
`[fo, t, 0x02, c]` is accepted with `cause = c` exactly when `c` is one of the
nine standard cause codes, and is otherwise rejected with the "Invalid cause"
error (whose text cites the `cause` the receiver held before, not `c`). -/
theorem unmarshalBinary_cause (cpm : cpMessage) (fo t c : Nat) (spare : List Nat)
    (ht : t = 0x1 ∨ t = 0x4 ∨ t = 0x10) :
    ((∃ m, cpm.unmarshalBinary ⟨[fo, t, 0x02, c], spare⟩ = .ok m ∧ m.cause = c) ↔
        c ∈ [0x11, 0x16, 0x51, 0x5f, 0x60, 0x61, 0x62, 0x63, 0x6f]) ∧
      (c ∈ [0x11, 0x16, 0x51, 0x5f, 0x60, 0x61, 0x62, 0x63, 0x6f] →
        cpm.unmarshalBinary ⟨[fo, t, 0x02, c], spare⟩ =
          .ok { cpm with firstOctet := fo, messageType := t, cause := c }) ∧
      (c ∉ [0x11, 0x16, 0x51, 0x5f, 0x60, 0x61, 0x62, 0x63, 0x6f] →
        cpm.unmarshalBinary ⟨[fo, t, 0x02, c], spare⟩ =
          .error { cpm with firstOctet := fo, messageType := t } (.invalidCause cpm.cause)) := by
  rw [unmarshalBinary_single_cause_ie cpm fo t c spare ht, ← CpCauseStr_contains_iff]
  by_cases hc : CpCauseStr.contains c = true <;> simp [hc]

/-- Instance of C13: `[0x09, 0x10, 0x02, 0x11]` parses as a CP-ERROR with cause
`0x11`, and `[0x09, 0x10, 0x02, 0xFF]` is rejected with the "Invalid cause"
error. -/
theorem unmarshalBinary_cause_witness :
    cpMessage.empty.unmarshalBinary ⟨[0x09, 0x10, 0x02, 0x11], []⟩ =
        .ok ⟨0x09, 0x10, 0x11, 0, []⟩ ∧
      cpMessage.empty.unmarshalBinary ⟨[0x09, 0x10, 0x02, 0xFF], []⟩ =
        .error ⟨0x09, 0x10, 0, 0, []⟩ (.invalidCause 0) :=
  ⟨(unmarshalBinary_cause cpMessage.empty 0x09 0x10 0x11 [] (by decide)).2.1 (by decide),
   (unmarshalBinary_cause cpMessage.empty 0x09 0x10 0xFF [] (by decide)).2.2 (by decide)⟩

/-- C18 (the code breaks the claim): on `[0x09, 0x10, 0x02, 0xFF]` into an empty
message the "Invalid cause" error cites 0, the `cause` field of the receiver,
and not the offending byte `0xFF`; after an earlier Cause IE `0x11` in the same
input it cites `0x11`. -/
theorem unmarshalBinary_invalid_cause_cites_receiver (spare : List Nat) :
    cpMessage.empty.unmarshalBinary ⟨[0x09, 0x10, 0x02, 0xFF], spare⟩ =
        .error ⟨0x09, 0x10, 0, 0, []⟩ (.invalidCause 0) ∧
      cpMessage.empty.unmarshalBinary ⟨[0x09, 0x10, 0x02, 0x11, 0x02, 0xFF], spare⟩ =
        .error ⟨0x09, 0x10, 0x11, 0, []⟩ (.invalidCause 0x11) := by
  have h1 : CpCauseStr.contains 0xFF = false := by decide
  have h2 : CpCauseStr.contains 0x11 = true := by decide
  constructor <;>
    simp [cpMessage.unmarshalBinary, decodeIEs, ByteSlice.len, ByteSlice.index,
      cpMessage.empty, h1, h2]

/-- C20: for every message of type CP-ACK, whatever its other fields hold,
`unmarshalBinary` of its `marshalBinary` into an empty message succeeds, for
every capacity, with the first octet of the message, type CP-ACK, `cause = 0`,
`length = 0` and an empty `rpdu`. -/
theorem round_trip_ack (m : cpMessage) (spare : List Nat) (h : m.messageType = CpAck) :
    cpMessage.empty.unmarshalBinary ⟨m.marshalBinary, spare⟩ =
      .ok ⟨m.firstOctet, CpAck, 0, 0, []⟩ := by
  have hm : m.marshalBinary = [m.firstOctet, CpAck] := by
    simp [cpMessage.marshalBinary, h]
  rw [hm, unmarshalBinary_cons_cons, if_neg (by simp)]
  exact decodeIEs_done _ _ _ (by simp)

/-- Instance of C20 on a CP-ACK message that carries a stray cause and payload. -/
theorem round_trip_ack_witness :
    cpMessage.empty.unmarshalBinary
        ⟨(⟨0x59, CpAck, 0x11, 1, [0xAA]⟩ : cpMessage).marshalBinary, [0x01, 0x02]⟩ =
      .ok ⟨0x59, CpAck, 0, 0, []⟩ :=
  round_trip_ack ⟨0x59, CpAck, 0x11, 1, [0xAA]⟩ [0x01, 0x02] rfl

/-! ## Parsing: what the loop keeps and what it changes -/

/-- The loop never writes `firstOctet` or `messageType`. -/
theorem decodeIEs_receiver_header (input : ByteSlice) (decoded : Nat) (cpm : cpMessage) :
    (decodeIEs input decoded cpm).receiver.firstOctet = cpm.firstOctet ∧
      (decodeIEs input decoded cpm).receiver.messageType = cpm.messageType := by
  induction decoded, cpm using decodeIEs.induct input with
  | case1 decoded cpm h htag _ hidx =>
    rw [decodeIEs]; simp [h, htag, hidx, Outcome.receiver]
  | case2 decoded cpm h htag _ l hidx _ _ _ hsl =>
    rw [decodeIEs]; simp [h, htag, hidx, hsl, Outcome.receiver]
  | case3 decoded cpm h htag _ l hidx _ _ _ _ src hsl ih =>
    rw [decodeIEs]; simpa [h, htag, hidx, hsl] using ih
  | case4 decoded cpm h hnt htag _ hidx =>
    rw [decodeIEs]; simp [h, hnt, htag, hidx, Outcome.receiver]
  | case5 decoded cpm h hnt htag _ c hidx hc ih =>
    rw [decodeIEs]; simpa [h, hnt, htag, hidx, hc] using ih
  | case6 decoded cpm h hnt htag _ c hidx hc =>
    rw [decodeIEs]; simp [h, hnt, htag, hidx, hc, Outcome.receiver]
  | case7 decoded cpm h hnt hnc => rw [decodeIEs]; simp [h, hnt, hnc, Outcome.receiver]
  | case8 decoded cpm h => rw [decodeIEs]; simp [h, Outcome.receiver]

/-- The only errors the loop builds are "Invalid cause" and "Invalid IE type". -/
theorem decodeIEs_err_kind (input : ByteSlice) (decoded : Nat) (cpm : cpMessage) (e : CpErr)
    (he : (decodeIEs input decoded cpm).err? = some e) :
    (∃ v, e = .invalidCause v) ∨ (∃ v, e = .invalidIeType v) := by
  induction decoded, cpm using decodeIEs.induct input with
  | case1 decoded cpm h htag _ hidx =>
    rw [decodeIEs] at he; simp [h, htag, hidx, Outcome.err?] at he
  | case2 decoded cpm h htag _ l hidx _ _ _ hsl =>
    rw [decodeIEs] at he; simp [h, htag, hidx, hsl, Outcome.err?] at he
  | case3 decoded cpm h htag _ l hidx _ _ _ _ src hsl ih =>
    rw [decodeIEs] at he; simp only [h, htag, hidx, hsl, dite_true, ite_true] at he
    exact ih he
  | case4 decoded cpm h hnt htag _ hidx =>
    rw [decodeIEs] at he; simp [h, hnt, htag, hidx, Outcome.err?] at he
  | case5 decoded cpm h hnt htag _ c hidx hc ih =>
    rw [decodeIEs] at he; simp only [h, hnt, htag, hidx, hc, dite_true, ite_true, ite_false] at he
    exact ih he
  | case6 decoded cpm h hnt htag _ c hidx hc =>
    rw [decodeIEs] at he; simp [h, hnt, htag, hidx, hc, Outcome.err?] at he
    exact Or.inl ⟨_, he.symm⟩
  | case7 decoded cpm h hnt hnc =>
    rw [decodeIEs] at he; simp [h, hnt, hnc, Outcome.err?] at he
    exact Or.inr ⟨_, he.symm⟩
  | case8 decoded cpm h => rw [decodeIEs] at he; simp [h, Outcome.err?] at he

/-- C15 as stated fails: `[0x00, 0x04]` is accepted, and the parsed message has
protocol discriminator 0, not `0x9`. -/
theorem unmarshalBinary_accepts_other_protocolDisc :
    ∃ m, cpMessage.empty.unmarshalBinary ⟨[0x00, 0x04], []⟩ = .ok m ∧
      m.GetProtocolDisc = 0 ∧ m.GetProtocolDisc ≠ 0x9 :=
  ⟨⟨0x00, 0x04, 0, 0, []⟩, by simp [cpMessage.unmarshalBinary, decodeIEs, cpMessage.empty],
    by decide, by decide⟩

/-- C15, amended: every message returned by `createCpMessage` has protocol
discriminator `0x9`; a message parsed by a successful `unmarshalBinary` has
byte 0 of the input as its `firstOctet`, unchecked, so its protocol
discriminator is the lower nibble of that byte, and is `0x9` exactly when that
nibble is. -/
theorem protocolDisc_of_create_and_unmarshal (txID messageType : Nat) (rpdu : List Nat)
    (m1 : cpMessage) (cpm : cpMessage) (input : ByteSlice) (m2 : cpMessage)
    (h1 : createCpMessage txID messageType rpdu = .ok m1)
    (h2 : cpm.unmarshalBinary input = .ok m2) :
    m1.GetProtocolDisc = 0x9 ∧
      ∃ b, input.index 0 = some b ∧ m2.firstOctet = b ∧ m2.GetProtocolDisc = b &&& 0xf ∧
        (m2.GetProtocolDisc = 0x9 ↔ b &&& 0xf = 0x9) := by
  constructor
  · unfold createCpMessage at h1
    split at h1
    · cases h1
    · split at h1
      · cases h1
      · rename_i htx _
        cases h1
        obtain ⟨e1, _, e3⟩ := firstOctet_pack txID (by omega)
        simp only [cpMessage.GetProtocolDisc]
        rw [e1, e3]
  · obtain ⟨elems, spare⟩ := input
    match elems with
    | [] => simp [cpMessage.unmarshalBinary] at h2
    | [_] => simp [cpMessage.unmarshalBinary] at h2
    | fo :: t :: rest =>
      rw [unmarshalBinary_cons_cons] at h2
      by_cases hmt : t ≠ CpData ∧ t ≠ CpError ∧ t ≠ CpAck
      · rw [if_pos hmt] at h2
        cases h2
      · rw [if_neg hmt] at h2
        have hfo := (decodeIEs_receiver_header ⟨fo :: t :: rest, spare⟩ 2
          { cpm with firstOctet := fo, messageType := t }).1
        rw [h2] at hfo
        simp only [Outcome.receiver] at hfo
        refine ⟨fo, by simp [ByteSlice.index], hfo, ?_, ?_⟩
        · simp only [cpMessage.GetProtocolDisc, hfo]
        · simp only [cpMessage.GetProtocolDisc, hfo]

/-- Instance of the amended C15: `create(7, Ack, [])` has protocol discriminator
`0x9`, and `[0x35, 0x04]` parses with first octet `0x35`, protocol
discriminator `0x35 & 0xf`. -/
theorem protocolDisc_of_create_and_unmarshal_witness :
    (⟨0x79, CpAck, 0, 0, []⟩ : cpMessage).GetProtocolDisc = 0x9 ∧
      ∃ b, (⟨[0x35, 0x04], []⟩ : ByteSlice).index 0 = some b ∧
        (⟨0x35, 0x04, 0, 0, []⟩ : cpMessage).firstOctet = b ∧
        (⟨0x35, 0x04, 0, 0, []⟩ : cpMessage).GetProtocolDisc = b &&& 0xf ∧
        ((⟨0x35, 0x04, 0, 0, []⟩ : cpMessage).GetProtocolDisc = 0x9 ↔ b &&& 0xf = 0x9) :=
  protocolDisc_of_create_and_unmarshal 7 CpAck [] ⟨0x79, CpAck, 0, 0, []⟩
    cpMessage.empty ⟨[0x35, 0x04], []⟩ ⟨0x35, 0x04, 0, 0, []⟩ rfl
    (by simp [cpMessage.unmarshalBinary, decodeIEs, cpMessage.empty])

/-- C17 as stated fails: on `[0x09, 0x99]` the call returns the "Invalid Message
type" error, and the receiver, empty before the call, now holds
`firstOctet = 0x09` and `messageType = 0x99`. -/
theorem error_overwrites_receiver :
    cpMessage.empty.unmarshalBinary ⟨[0x09, 0x99], []⟩ =
        .error ⟨0x09, 0x99, 0, 0, []⟩ (.invalidMessageType 0x99) ∧
      (cpMessage.empty.unmarshalBinary ⟨[0x09, 0x99], []⟩).receiver ≠ cpMessage.empty := by
  have h : cpMessage.empty.unmarshalBinary ⟨[0x09, 0x99], []⟩ =
      .error ⟨0x09, 0x99, 0, 0, []⟩ (.invalidMessageType 0x99) := by
    simp [cpMessage.unmarshalBinary, cpMessage.empty]
  refine ⟨h, ?_⟩
  rw [h]
  decide

/-- C17, amended: when `unmarshalBinary` returns the "Message too short" error
the receiver is exactly what it was before the call; when it returns any other
error, `firstOctet` and `messageType` of the receiver have been overwritten with
bytes 0 and 1 of the input, and for the "Invalid Message type" error the other
three fields are what they were before the call. -/
theorem receiver_after_error (cpm : cpMessage) (input : ByteSlice) (e : CpErr)
    (he : (cpm.unmarshalBinary input).err? = some e) :
    (e = .messageTooShort → (cpm.unmarshalBinary input).receiver = cpm) ∧
      (e ≠ .messageTooShort →
        input.index 0 = some (cpm.unmarshalBinary input).receiver.firstOctet ∧
        input.index 1 = some (cpm.unmarshalBinary input).receiver.messageType) ∧
      (∀ t, e = .invalidMessageType t →
        (cpm.unmarshalBinary input).receiver.cause = cpm.cause ∧
        (cpm.unmarshalBinary input).receiver.length = cpm.length ∧
        (cpm.unmarshalBinary input).receiver.rpdu = cpm.rpdu) := by
  obtain ⟨elems, spare⟩ := input
  match elems with
  | [] => simp_all [cpMessage.unmarshalBinary, Outcome.err?, Outcome.receiver]
  | [_] => simp_all [cpMessage.unmarshalBinary, Outcome.err?, Outcome.receiver]
  | fo :: t :: rest =>
    rw [unmarshalBinary_cons_cons] at he ⊢
    by_cases hmt : t ≠ CpData ∧ t ≠ CpError ∧ t ≠ CpAck
    · rw [if_pos hmt] at he ⊢
      simp only [Outcome.err?, Option.some.injEq] at he
      subst he
      simp [Outcome.receiver, ByteSlice.index]
    · rw [if_neg hmt] at he ⊢
      have hk := decodeIEs_err_kind _ _ _ e he
      have hh := decodeIEs_receiver_header ⟨fo :: t :: rest, spare⟩ 2
        { cpm with firstOctet := fo, messageType := t }
      refine ⟨?_, ?_, ?_⟩
      · rintro rfl
        rcases hk with ⟨v, hv⟩ | ⟨v, hv⟩ <;> cases hv
      · intro _
        simp [ByteSlice.index, hh.1, hh.2]
      · rintro t2 rfl
        rcases hk with ⟨v, hv⟩ | ⟨v, hv⟩ <;> cases hv

/-- Instance of the amended C17 on `[0x09, 0x99]`, rejected for its type byte. -/
theorem receiver_after_error_witness :
    ((CpErr.invalidMessageType 0x99) = .messageTooShort →
        (cpMessage.empty.unmarshalBinary ⟨[0x09, 0x99], []⟩).receiver = cpMessage.empty) ∧
      ((CpErr.invalidMessageType 0x99) ≠ .messageTooShort →
        (⟨[0x09, 0x99], []⟩ : ByteSlice).index 0 =
          some (cpMessage.empty.unmarshalBinary ⟨[0x09, 0x99], []⟩).receiver.firstOctet ∧
        (⟨[0x09, 0x99], []⟩ : ByteSlice).index 1 =
          some (cpMessage.empty.unmarshalBinary ⟨[0x09, 0x99], []⟩).receiver.messageType) ∧
      (∀ t, (CpErr.invalidMessageType 0x99) = .invalidMessageType t →
        (cpMessage.empty.unmarshalBinary ⟨[0x09, 0x99], []⟩).receiver.cause =
          cpMessage.empty.cause ∧
        (cpMessage.empty.unmarshalBinary ⟨[0x09, 0x99], []⟩).receiver.length =
          cpMessage.empty.length ∧
        (cpMessage.empty.unmarshalBinary ⟨[0x09, 0x99], []⟩).receiver.rpdu =
          cpMessage.empty.rpdu) :=
  receiver_after_error cpMessage.empty ⟨[0x09, 0x99], []⟩ (.invalidMessageType 0x99)
    (by simp [cpMessage.unmarshalBinary, cpMessage.empty, Outcome.err?])

/-! ## Parsing: sequences of IEs -/

/-- Reading a window that lies inside `pre` gives the same bytes whatever
follows `pre` in the backing array. -/
theorem take_drop_append_inside (pre ext : List Nat) (lo n : Nat) (h : lo + n ≤ pre.length) :
    ((pre ++ ext).drop lo).take n = (pre.drop lo).take n := by
  rw [List.drop_append_of_le_length (by omega), List.take_append_of_le_length]
  rw [List.length_drop]
  omega

/-- When the loop accepts `pre`, held in a slice without spare capacity, from the
cursor `decoded` on, then on every input that starts with `pre` the loop from
`decoded` on gets to the cursor `len(pre)` with the same receiver. -/
theorem decodeIEs_append (pre ext sp : List Nat) (decoded : Nat) (cpm m : cpMessage)
    (hd : decoded ≤ pre.length)
    (hok : decodeIEs ⟨pre, []⟩ decoded cpm = .ok m) :
    decodeIEs ⟨pre ++ ext, sp⟩ decoded cpm = decodeIEs ⟨pre ++ ext, sp⟩ pre.length m := by
  induction decoded, cpm using decodeIEs.induct ⟨pre, []⟩ with
  | case1 decoded cpm h htag _ hidx =>
    rw [decodeIEs] at hok; simp [h, htag, hidx] at hok
  | case2 decoded cpm h htag _ l hidx _ _ _ hsl =>
    rw [decodeIEs] at hok; simp [h, htag, hidx, hsl] at hok
  | case3 decoded cpm h htag d1 l hidx cpm1 d2 endPos cpm2 src hsl ih =>
    rw [decodeIEs] at hok
    simp only [h, htag, hidx, hsl, dite_true, ite_true] at hok
    simp only [d1, d2, endPos, cpm1, cpm2] at hidx hsl ih
    simp only [ByteSlice.reslice, ByteSlice.cap, List.length_nil, Nat.add_zero,
      List.append_nil] at hsl
    split at hsl
    · rename_i hb
      simp only [Option.some.injEq] at hsl
      have hi : decoded + 1 < pre.length := by
        simp only [ByteSlice.index] at hidx
        exact (List.getElem?_eq_some_iff.mp hidx).1
      have h2 : decoded < (pre ++ ext).length := by simp; omega
      have htag2 : (pre ++ ext)[decoded] = CpIeiUserData := by
        rw [List.getElem_append_left h]; exact htag
      have hidx2 : (⟨pre ++ ext, sp⟩ : ByteSlice).index (decoded + 1) = some l := by
        simp only [ByteSlice.index] at hidx ⊢
        rw [List.getElem?_append_left hi]; exact hidx
      have hsl2 : (⟨pre ++ ext, sp⟩ : ByteSlice).reslice (decoded + 1 + 1) (decoded + 1 + 1 + l) =
          some src := by
        simp only [ByteSlice.reslice, ByteSlice.cap]
        rw [if_pos ⟨by omega, by simp; omega⟩, List.append_assoc,
          take_drop_append_inside pre (ext ++ sp) _ _ (by omega)]
        simp only [Nat.add_sub_cancel_left] at hsl ⊢
        rw [hsl]
      conv_lhs => rw [decodeIEs]
      simp only [h2, htag2, hidx2, hsl2, dite_true, ite_true]
      exact ih (by omega) hok
    · cases hsl
  | case4 decoded cpm h hnt htag _ hidx =>
    rw [decodeIEs] at hok; simp [h, hnt, htag, hidx] at hok
  | case5 decoded cpm h hnt htag d1 c hidx hc ih =>
    rw [decodeIEs] at hok
    simp only [h, hnt, htag, hidx, hc, dite_true, ite_true, ite_false] at hok
    simp only [d1] at hidx ih
    have hi : decoded + 1 < pre.length := by
      simp only [ByteSlice.index] at hidx
      exact (List.getElem?_eq_some_iff.mp hidx).1
    have h2 : decoded < (pre ++ ext).length := by simp; omega
    have hnt2 : ¬ (pre ++ ext)[decoded] = CpIeiUserData := by
      rw [List.getElem_append_left h]; exact hnt
    have htag2 : (pre ++ ext)[decoded] = CpIeiCause := by
      rw [List.getElem_append_left h]; exact htag
    have hidx2 : (⟨pre ++ ext, sp⟩ : ByteSlice).index (decoded + 1) = some c := by
      simp only [ByteSlice.index] at hidx ⊢
      rw [List.getElem?_append_left hi]; exact hidx
    conv_lhs => rw [decodeIEs]
    simp only [h2, hnt2, htag2, hidx2, hc, dite_true, ite_true, ite_false]
    exact ih (by omega) hok
  | case6 decoded cpm h hnt htag _ c hidx hc =>
    rw [decodeIEs] at hok; simp [h, hnt, htag, hidx, hc] at hok
  | case7 decoded cpm h hnt hnc =>
    rw [decodeIEs] at hok; simp [h, hnt, hnc] at hok
  | case8 decoded cpm h =>
    rw [decodeIEs] at hok
    simp only [h, dite_false, Outcome.ok.injEq] at hok
    have hd2 : decoded = pre.length := by
      have : ¬ decoded < pre.length := h
      omega
    rw [hd2, hok]

/-- When `unmarshalBinary` accepts `pre`, held in a slice without spare
capacity, then on every input that starts with `pre` the call gets to the
cursor `len(pre)` with the receiver that the call on `pre` returned. -/
theorem unmarshalBinary_append (cpm m : cpMessage) (pre ext sp : List Nat)
    (hpre : cpm.unmarshalBinary (.exact pre) = .ok m) :
    cpm.unmarshalBinary ⟨pre ++ ext, sp⟩ = decodeIEs ⟨pre ++ ext, sp⟩ pre.length m := by
  match pre with
  | [] => simp [cpMessage.unmarshalBinary, ByteSlice.exact] at hpre
  | [_] => simp [cpMessage.unmarshalBinary, ByteSlice.exact] at hpre
  | fo :: t :: rest =>
    simp only [ByteSlice.exact] at hpre
    rw [unmarshalBinary_cons_cons] at hpre
    show cpm.unmarshalBinary ⟨fo :: t :: (rest ++ ext), sp⟩ = _
    rw [unmarshalBinary_cons_cons]
    by_cases hmt : t ≠ CpData ∧ t ≠ CpError ∧ t ≠ CpAck
    · rw [if_pos hmt] at hpre
      cases hpre
    · rw [if_neg hmt] at hpre ⊢
      exact decodeIEs_append (fo :: t :: rest) ext sp 2 _ m (by simp) hpre

/-- One pass of the loop at a tag byte that is neither `0x1` nor `0x2`. -/
theorem decodeIEs_unknown_tag (pre rest sp : List Nat) (tag : Nat) (cpm : cpMessage)
    (htag : tag ≠ CpIeiUserData ∧ tag ≠ CpIeiCause) :
    decodeIEs ⟨pre ++ tag :: rest, sp⟩ pre.length cpm = .error cpm (.invalidIeType tag) := by
  have hget := List.getElem_of_append (rfl : pre ++ tag :: rest = pre ++ tag :: rest)
    (rfl : pre.length = pre.length)
  rw [decodeIEs]
  simp [hget, htag.1, htag.2]

/-- One pass of the loop at a Cause IE that ends the input. -/
theorem decodeIEs_cause_last (pre sp : List Nat) (c : Nat) (cpm : cpMessage)
    (hc : CpCauseStr.contains c = true) :
    decodeIEs ⟨pre ++ CpIeiCause :: [c], sp⟩ pre.length cpm = .ok { cpm with cause := c } := by
  have hlt : pre.length < (pre ++ CpIeiCause :: [c]).length := by simp
  have hget : (pre ++ CpIeiCause :: [c])[pre.length] = CpIeiCause :=
    List.getElem_of_append rfl rfl
  have hidx : (⟨pre ++ CpIeiCause :: [c], sp⟩ : ByteSlice).index (pre.length + 1) = some c := by
    simp only [ByteSlice.index]
    rw [List.getElem?_append_right (by omega)]
    simp
  rw [decodeIEs]
  simp only [hlt, hget, hidx, hc, dite_true, ite_true]
  rw [if_neg (by decide)]
  exact decodeIEs_done _ _ _ (by simp)

/-- One pass of the loop at a User Data IE that ends the input. -/
theorem decodeIEs_user_data_last (pre p sp : List Nat) (cpm : cpMessage) :
    decodeIEs ⟨pre ++ CpIeiUserData :: p.length :: p, sp⟩ pre.length cpm =
      .ok { cpm with length := p.length, rpdu := p } := by
  have hlt : pre.length < (pre ++ CpIeiUserData :: p.length :: p).length := by simp
  have hget : (pre ++ CpIeiUserData :: p.length :: p)[pre.length] = CpIeiUserData :=
    List.getElem_of_append rfl rfl
  have hidx : (⟨pre ++ CpIeiUserData :: p.length :: p, sp⟩ : ByteSlice).index (pre.length + 1) =
      some p.length := by
    simp only [ByteSlice.index]
    rw [List.getElem?_append_right (by omega)]
    simp
  have hsl : (⟨pre ++ CpIeiUserData :: p.length :: p, sp⟩ : ByteSlice).reslice
      (pre.length + 1 + 1) (pre.length + 1 + 1 + p.length) = some p := by
    have happ : (pre ++ CpIeiUserData :: p.length :: p) ++ sp =
        (pre ++ [CpIeiUserData, p.length]) ++ (p ++ sp) := by simp
    simp only [ByteSlice.reslice, ByteSlice.cap]
    rw [if_pos ⟨by omega, by simp; omega⟩, happ, List.drop_left' (by simp),
      Nat.add_sub_cancel_left, List.take_left' rfl]
  rw [decodeIEs]
  simp only [hlt, hget, hidx, hsl, dite_true, ite_true]
  exact decodeIEs_done _ _ _ (by simp; omega)

/-- C14: on an input with a valid header in which the byte at an IE-tag position
is neither `0x1` nor `0x2`, `unmarshalBinary` fails with the "Invalid IE type"
error citing exactly that byte. The IE-tag positions are offset 2 and every
position that ends a sequence of complete IEs: the positions `len(pre)` of the
inputs `pre ++ tag :: rest` whose part `pre` is itself accepted when its slice
has no spare capacity (with `pre = [fo, t]` this is offset 2). The receiver is
left as the IEs before the tag made it. -/
theorem unmarshalBinary_unknown_ie (cpm m : cpMessage) (pre rest spare : List Nat) (tag : Nat)
    (hpre : cpm.unmarshalBinary (.exact pre) = .ok m)
    (htag : tag ≠ 0x1 ∧ tag ≠ 0x2) :
    cpm.unmarshalBinary ⟨pre ++ tag :: rest, spare⟩ = .error m (.invalidIeType tag) := by
  rw [unmarshalBinary_append cpm m pre (tag :: rest) spare hpre]
  exact decodeIEs_unknown_tag pre rest spare tag m htag

/-- Instance of C14: in `[0x09, 0x01, 0x01, 0x01, 0xAA, 0x02, 0x11, 0x07, 0x01]`
the byte `0x07` follows a User Data IE and a Cause IE, and the error cites it. -/
theorem unmarshalBinary_unknown_ie_witness :
    cpMessage.empty.unmarshalBinary
        ⟨[0x09, 0x01, 0x01, 0x01, 0xAA, 0x02, 0x11] ++ 0x07 :: [0x01], []⟩ =
      .error ⟨0x09, 0x01, 0x11, 1, [0xAA]⟩ (.invalidIeType 0x07) :=
  unmarshalBinary_unknown_ie cpMessage.empty ⟨0x09, 0x01, 0x11, 1, [0xAA]⟩
    [0x09, 0x01, 0x01, 0x01, 0xAA, 0x02, 0x11] [0x01] [] 0x07
    (by
      have h2 : CpCauseStr.contains 0x11 = true := by decide
      simp [cpMessage.unmarshalBinary, decodeIEs, ByteSlice.len, ByteSlice.index,
        ByteSlice.reslice, ByteSlice.cap, ByteSlice.exact, cpMessage.empty, h2])
    (by decide)

/-- A helper for C19: when `unmarshalBinary` accepts `pre`, held in a slice
without spare capacity, with result `m`, then `pre` followed by a Cause IE with
a standard cause `c` is accepted with `m` except `cause = c`, and `pre` followed
by a User Data IE with payload `p` is accepted with `m` except
`length = len(p)` and `rpdu = p`, for every capacity of the longer input. -/
theorem unmarshalBinary_append_ie (cpm m : cpMessage) (pre sp p : List Nat) (c : Nat)
    (hpre : cpm.unmarshalBinary (.exact pre) = .ok m)
    (hc : c ∈ [0x11, 0x16, 0x51, 0x5f, 0x60, 0x61, 0x62, 0x63, 0x6f]) :
    cpm.unmarshalBinary ⟨pre ++ [0x02, c], sp⟩ = .ok { m with cause := c } ∧
      cpm.unmarshalBinary ⟨pre ++ [0x01, p.length] ++ p, sp⟩ =
        .ok { m with length := p.length, rpdu := p } := by
  constructor
  · rw [unmarshalBinary_append cpm m pre _ sp hpre]
    exact decodeIEs_cause_last pre sp c m ((CpCauseStr_contains_iff c).mpr hc)
  · rw [List.append_assoc, unmarshalBinary_append cpm m pre _ sp hpre]
    exact decodeIEs_user_data_last pre p sp m

/-- C19 (the code breaks the claim): the input `[0x09, 0x01, 0x01, 0x01]` in a
slice whose backing array holds one more byte `0x07` is accepted, with
`rpdu = [0x07]` read from beyond its length; but that input followed by the
Cause IE `[0x02, 0x11]` is rejected, for every capacity, with
"Invalid IE type: 11": the User Data IE now takes `0x02` as its payload. -/
theorem unmarshalBinary_append_after_overread :
    cpMessage.empty.unmarshalBinary ⟨[0x09, 0x01, 0x01, 0x01], [0x07]⟩ =
        .ok ⟨0x09, 0x01, 0, 1, [0x07]⟩ ∧
      ∀ spare : List Nat,
        cpMessage.empty.unmarshalBinary ⟨[0x09, 0x01, 0x01, 0x01] ++ [0x02, 0x11], spare⟩ =
          .error ⟨0x09, 0x01, 0, 1, [0x02]⟩ (.invalidIeType 0x11) := by
  refine ⟨?_, fun spare => ?_⟩
  · simp [cpMessage.unmarshalBinary, decodeIEs, ByteSlice.len, ByteSlice.index,
      ByteSlice.reslice, ByteSlice.cap, cpMessage.empty]
  · have h : 5 ≤ 6 + spare.length := by omega
    simp [cpMessage.unmarshalBinary, decodeIEs, ByteSlice.len, ByteSlice.index,
      ByteSlice.reslice, ByteSlice.cap, cpMessage.empty, h]

/-- A property of the receiver that every write of a parsed IE keeps is kept by
the loop, on the runs that return `nil`. -/
theorem decodeIEs_invariant (input : ByteSlice) (P : cpMessage → Prop)
    (hdata : ∀ (d l : Nat) (src : List Nat) (cpm : cpMessage), 2 ≤ d →
      input.index d = some CpIeiUserData → input.index (d + 1) = some l →
      input.reslice (d + 2) (d + 2 + l) = some src → P cpm →
      P { cpm with length := l, rpdu := src })
    (hcause : ∀ (d c : Nat) (cpm : cpMessage), 2 ≤ d →
      input.index d = some CpIeiCause → input.index (d + 1) = some c →
      CpCauseStr.contains c = true → P cpm → P { cpm with cause := c })
    (decoded : Nat) (cpm m : cpMessage) (hd : 2 ≤ decoded) (hP : P cpm)
    (hok : decodeIEs input decoded cpm = .ok m) : P m := by
  induction decoded, cpm using decodeIEs.induct input with
  | case1 decoded cpm h htag _ hidx =>
    rw [decodeIEs] at hok; simp [h, htag, hidx] at hok
  | case2 decoded cpm h htag _ l hidx _ _ _ hsl =>
    rw [decodeIEs] at hok; simp [h, htag, hidx, hsl] at hok
  | case3 decoded cpm h htag d1 l hidx cpm1 d2 endPos cpm2 src hsl ih =>
    rw [decodeIEs] at hok
    simp only [h, htag, hidx, hsl, dite_true, ite_true] at hok
    simp only [d1, d2, endPos, cpm1, cpm2] at hidx hsl ih
    have ht : input.index decoded = some CpIeiUserData := by
      simp only [ByteSlice.index]
      rw [List.getElem?_eq_getElem h, htag]
    exact ih (by omega) (hdata decoded l src cpm hd ht hidx hsl hP) hok
  | case4 decoded cpm h hnt htag _ hidx =>
    rw [decodeIEs] at hok; simp [h, hnt, htag, hidx] at hok
  | case5 decoded cpm h hnt htag d1 c hidx hc ih =>
    rw [decodeIEs] at hok
    simp only [h, hnt, htag, hidx, hc, dite_true, ite_true, ite_false] at hok
    simp only [d1] at hidx ih
    have ht : input.index decoded = some CpIeiCause := by
      simp only [ByteSlice.index]
      rw [List.getElem?_eq_getElem h, htag]
    exact ih (by omega) (hcause decoded c cpm hd ht hidx hc hP) hok
  | case6 decoded cpm h hnt htag _ c hidx hc =>
    rw [decodeIEs] at hok; simp [h, hnt, htag, hidx, hc] at hok
  | case7 decoded cpm h hnt hnc =>
    rw [decodeIEs] at hok; simp [h, hnt, hnc] at hok
  | case8 decoded cpm h =>
    rw [decodeIEs] at hok
    simp only [h, dite_false, Outcome.ok.injEq] at hok
    exact hok ▸ hP

/-- C16 (the code breaks the claim): the struct comments say that `cause` is
"Only present for CP-ERROR" and `rpdu` "Only present for CP-DATA", but neither
`createCpMessage` nor the IE loop looks at the message type when it stores
them. `createCpMessage(0, CpAck, [0xAA])` returns a CP-ACK message with
`rpdu = [0xAA]` (and `length = 1`); `[0x09, 0x04, 0x02, 0x11]` parses as a
CP-ACK message with `cause = 0x11`, and `[0x09, 0x04, 0x01, 0x01, 0xAA]` as a
CP-ACK message with `rpdu = [0xAA]`. -/
theorem fields_populated_whatever_the_type :
    createCpMessage 0 CpAck [0xAA] = .ok ⟨0x09, CpAck, 0, 1, [0xAA]⟩ ∧
      cpMessage.empty.unmarshalBinary ⟨[0x09, 0x04, 0x02, 0x11], []⟩ =
        .ok ⟨0x09, CpAck, 0x11, 0, []⟩ ∧
      cpMessage.empty.unmarshalBinary ⟨[0x09, 0x04, 0x01, 0x01, 0xAA], []⟩ =
        .ok ⟨0x09, CpAck, 0, 1, [0xAA]⟩ := by
  have h2 : CpCauseStr.contains 0x11 = true := by decide
  refine ⟨rfl, ?_, ?_⟩ <;>
    simp [cpMessage.unmarshalBinary, decodeIEs, ByteSlice.len, ByteSlice.index,
      ByteSlice.reslice, ByteSlice.cap, cpMessage.empty, h2]

end SmsCp
